import Mathlib

/-!
Verification development for the memory_server backend.

The repository source available here is `src/backend/src/serve.rs`, the
warp-based transport layer: it builds the HTTP route table, the CORS policy
and the body-size limits and dispatches to handler functions.  The route
table, CORS policy and body limits below are embedded directly from that
file.  The core engine (process session, memory scanner, breakpoint and
watchpoint registry, memory read/write) is not part of the available
source; those parts are modelled from the specification, and every such
definition is marked `Modelled from the spec:` in its doc comment.
-/

namespace MemoryServer

/-! ## Transport layer, embedded from src/backend/src/serve.rs -/

/-- HTTP methods used by the route table in `serve.rs`. -/
inductive Method where
  | GET
  | POST
  | PUT
  | DELETE
deriving DecidableEq, Repr

/-- The handler functions of `crate::api` that the routes in `serve.rs`
dispatch to, one constructor per `api::*_handler` referenced in `serve`. -/
inductive Handler where
  | enumerateProcess
  | enumModule
  | openProcess
  | changeProcessState
  | readMemory
  | writeMemory
  | readMemoryMultiple
  | memoryScan
  | memoryFilter
  | enumerateRegions
  | setWatchpoint
  | removeWatchpoint
  | setBreakpoint
  | removeBreakpoint
  | resolveAddr
  | exploreDirectory
  | readFile
  | getAppInfo
  | serverInfo
  | getExceptionInfo
  | pointermapGenerate
deriving DecidableEq, Repr

/-- One warp route of `serve`: path literal, HTTP method, the optional
`warp::body::content_length_limit` attached to it, and the handler it
dispatches to. -/
structure Route where
  path : String
  method : Method
  bodyLimit : Option Nat
  handler : Handler
deriving DecidableEq, Repr

/-- Route `warp::path!("processes").and(warp::get())` in `serve.rs`. -/
def enum_process : Route := ⟨"processes", .GET, none, .enumerateProcess⟩

/-- Route `warp::path!("modules").and(warp::get())` in `serve.rs`. -/
def enum_module : Route := ⟨"modules", .GET, none, .enumModule⟩

/-- Route `warp::path!("process").and(warp::post())` in `serve.rs`. -/
def open_process : Route := ⟨"process", .POST, none, .openProcess⟩

/-- Route `warp::path!("process").and(warp::put())` in `serve.rs`. -/
def change_process_state : Route := ⟨"process", .PUT, none, .changeProcessState⟩

/-- Route `warp::path!("memory").and(warp::get())` in `serve.rs`. -/
def read_memory : Route := ⟨"memory", .GET, none, .readMemory⟩

/-- Route `warp::path!("memory").and(warp::post())` in `serve.rs`. -/
def write_memory : Route := ⟨"memory", .POST, none, .writeMemory⟩

/-- Route `warp::path!("memories").and(warp::post())
.and(warp::body::content_length_limit(1024 * 1024 * 10))` in `serve.rs`:
the only route that declares an explicit body-size limit. -/
def read_memory_multiple : Route :=
  ⟨"memories", .POST, some (1024 * 1024 * 10), .readMemoryMultiple⟩

/-- Route `warp::path!("memoryscan").and(warp::post())` in `serve.rs`. -/
def memory_scan : Route := ⟨"memoryscan", .POST, none, .memoryScan⟩

/-- Route `warp::path!("memoryfilter").and(warp::post())` in `serve.rs`. -/
def memory_filter : Route := ⟨"memoryfilter", .POST, none, .memoryFilter⟩

/-- Route `warp::path!("regions").and(warp::get())` in `serve.rs`. -/
def enum_regions : Route := ⟨"regions", .GET, none, .enumerateRegions⟩

/-- Route `warp::path!("watchpoint").and(warp::post())` in `serve.rs`. -/
def set_watchpoint_route : Route := ⟨"watchpoint", .POST, none, .setWatchpoint⟩

/-- Route `warp::path!("watchpoint").and(warp::delete())` in `serve.rs`. -/
def remove_watchpoint_route : Route := ⟨"watchpoint", .DELETE, none, .removeWatchpoint⟩

/-- Route `warp::path!("breakpoint").and(warp::post())` in `serve.rs`. -/
def set_breakpoint_route : Route := ⟨"breakpoint", .POST, none, .setBreakpoint⟩

/-- Route `warp::path!("breakpoint").and(warp::delete())` in `serve.rs`. -/
def remove_breakpoint_route : Route := ⟨"breakpoint", .DELETE, none, .removeBreakpoint⟩

/-- Route `warp::path!("resolveaddr").and(warp::get())` in `serve.rs`. -/
def resolve_addr : Route := ⟨"resolveaddr", .GET, none, .resolveAddr⟩

/-- Route `warp::path!("directory").and(warp::get())` in `serve.rs`. -/
def explore_directory : Route := ⟨"directory", .GET, none, .exploreDirectory⟩

/-- Route `warp::path!("file").and(warp::get())` in `serve.rs`. -/
def read_file : Route := ⟨"file", .GET, none, .readFile⟩

/-- Route `warp::path!("appinfo").and(warp::get())` in `serve.rs`. -/
def get_app_info : Route := ⟨"appinfo", .GET, none, .getAppInfo⟩

/-- Route `warp::path!("serverinfo").and(warp::get())` in `serve.rs`. -/
def server_info : Route := ⟨"serverinfo", .GET, none, .serverInfo⟩

/-- Route `warp::path!("exceptioninfo").and(warp::get())` in `serve.rs`. -/
def get_exception_info : Route := ⟨"exceptioninfo", .GET, none, .getExceptionInfo⟩

/-- Route `warp::path!("pointermap").and(warp::post())` in `serve.rs`. -/
def pointermap_generate : Route := ⟨"pointermap", .POST, none, .pointermapGenerate⟩

/-- The full route combination built in `serve` (`process_routes
.or(memory_operation_routes).or(memory_analysis_routes).or(debug_routes)
.or(utility_routes).or(info_routes)`), in the order the groups are
combined.  The trailing static-file fallback has no fixed path or handler
and is not an API route. -/
def allRoutes : List Route :=
  [ enum_process, enum_module, open_process, change_process_state,
    read_memory, write_memory, read_memory_multiple,
    memory_scan, memory_filter, enum_regions,
    set_watchpoint_route, remove_watchpoint_route,
    set_breakpoint_route, remove_breakpoint_route,
    resolve_addr, explore_directory, read_file,
    get_app_info, server_info, get_exception_info, pointermap_generate ]

/-- The CORS policy built by `warp::cors()` in `serve.rs`. -/
structure CorsPolicy where
  allowAnyOrigin : Bool
  allowHeaders : List String
  allowMethods : List String
deriving DecidableEq, Repr

/-- Policy `warp::cors().allow_any_origin().allow_headers(vec!["*", "Content-Type"])
.allow_methods(vec!["GET", "POST", "PUT", "DELETE", "OPTIONS"])` in
`serve.rs`. -/
def cors : CorsPolicy :=
  ⟨true, ["*", "Content-Type"], ["GET", "POST", "PUT", "DELETE", "OPTIONS"]⟩

/-- Since `serve` applies `.with(cors)` to the whole route combination, so every
route is served together with the one CORS policy. -/
def servedRoutes : List (Route × CorsPolicy) :=
  allRoutes.map (fun r => (r, cors))

/-- Body gate: `warp::body::content_length_limit(lim)` rejects a request whose body
length exceeds `lim` before the handler runs; a route with no declared
limit passes every body through.  `true` means the body reaches the
handler. -/
def bodyAccepted (r : Route) (len : Nat) : Bool :=
  match r.bodyLimit with
  | none => true
  | some lim => len ≤ lim

/-! ## Core engine, modelled from the spec

The engine behind the routes (`crate::api`, the scanner, the session and
the registry) is not part of the available source; the definitions below
are modelled from the specification's component design, section by
section. -/

/-- Modelled from the spec: the error taxonomy of section 7; the engine
code carrying these errors is missing from the available source. -/
inductive Err where
  | ProcessNotFound
  | AlreadyOpen
  | ProcessDetached
  | InvalidTransition
  | RegionEnumerationFailed
  | ReadFailed
  | WriteFailed
  | ScanTooLarge
  | NoFreeSlot
  | InvalidAlignment
  | AddressInUse
  | NotFound
  | PathGenerationTimeout
deriving DecidableEq, Repr

/-- Process memory as seen through Native Process Access: a byte at each
address, `none` where the address is unreadable. -/
def Mem : Type := Nat → Option Nat

/-- Modelled from the spec: `ReadMemory(handle, address, length)` of the
Native Process Access capability (missing from the available source);
reads `len` consecutive bytes, failing if any byte is unreadable. -/
def readBytes (mem : Mem) (addr : Nat) : Nat → Option (List Nat)
  | 0 => some []
  | len + 1 =>
    match mem addr with
    | none => none
    | some b => (readBytes mem (addr + 1) len).map (fun bs => b :: bs)

/-- Little-endian recombination of a byte window into a value. -/
def bytesToNatLE : List Nat → Nat
  | [] => 0
  | b :: bs => b % 256 + 256 * bytesToNatLE bs

/-- Reading one value-sized window of `width` bytes at `addr`, as the
scanner does per candidate address; `none` when the window is unreadable. -/
def readValue (mem : Mem) (addr width : Nat) : Option Nat :=
  (readBytes mem addr width).map bytesToNatLE

/-- Modelled from the spec: a scan candidate of section 3 — address, last
observed value, optional previous value for trend comparisons. -/
structure Candidate where
  address : Nat
  value : Nat
  prev : Option Nat
deriving DecidableEq, Repr

/-- Modelled from the spec: the comparison kinds supported by
`FilterScan` in section 4.3. -/
inductive Comparison where
  | exact (v : Nat)
  | inRange (lo hi : Nat)
  | changed
  | unchanged
  | increased
  | decreased
deriving DecidableEq, Repr

/-- Modelled from the spec: predicate evaluation for a filter round;
`new` is the freshly read value, `old` the candidate's stored value
(`increased`/`decreased` compare against the previously stored value). -/
def evalComparison (c : Comparison) (new old : Nat) : Bool :=
  match c with
  | .exact v => new == v
  | .inRange lo hi => decide (lo ≤ new) && decide (new ≤ hi)
  | .changed => new != old
  | .unchanged => new == old
  | .increased => old < new
  | .decreased => new < old

/-- Modelled from the spec: predicate evaluation for the first scan,
where no previous value exists; literal comparisons test the read value,
trend comparisons (which need a stored value) retain every readable
address. -/
def firstMatch (c : Comparison) (v : Nat) : Bool :=
  match c with
  | .exact w => v == w
  | .inRange lo hi => decide (lo ≤ v) && decide (v ≤ hi)
  | _ => true

/-- Modelled from the spec: a memory region of section 3 — base address,
size, readability from its protection. -/
structure MemoryRegion where
  base : Nat
  size : Nat
  readable : Bool
deriving DecidableEq, Repr

/-- The addresses a scan visits inside one region: every address at the
alignment stride whose value-sized window fits in the region. -/
def regionAddresses (r : MemoryRegion) (alignment width : Nat) : List Nat :=
  ((List.range r.size).map (fun i => r.base + i)).filter
    (fun a => (a - r.base) % alignment == 0 && a + width ≤ r.base + r.size)

/-- Modelled from the spec: the full address scope of `StartScan` —
readable regions only, at the given alignment stride. -/
def scanAddresses (regions : List MemoryRegion) (alignment width : Nat) : List Nat :=
  (regions.filter (fun r => r.readable)).flatMap
    (fun r => regionAddresses r alignment width)

/-- Modelled from the spec: the per-address loop of `StartScan` —
read a value-sized window at each address; an unreadable address is
silently skipped and counted as a dropped read, a readable one is kept
as a candidate iff the predicate holds.  Returns the candidates and the
`droppedReads` count. -/
def scanStep (mem : Mem) (width : Nat) (cmp : Comparison) :
    List Nat → List Candidate × Nat
  | [] => ([], 0)
  | a :: rest =>
    let p := scanStep mem width cmp rest
    match readValue mem a width with
    | none => (p.1, p.2 + 1)
    | some v => if firstMatch cmp v then (⟨a, v, none⟩ :: p.1, p.2) else p

/-- Modelled from the spec: `StartScan(regionSnapshot, valueType,
comparison, literalValue?, alignment)` of section 4.3, the value type
reduced to its byte width. -/
def startScan (mem : Mem) (regions : List MemoryRegion) (cmp : Comparison)
    (alignment width : Nat) : List Candidate × Nat :=
  scanStep mem width cmp (scanAddresses regions alignment width)

/-- Modelled from the spec: `FilterScan(comparison, literalValue?)` of
section 4.3 — re-reads only the addresses currently in the candidate
set; an address that became unreadable is dropped and counted, a
readable one is kept iff the comparison holds against its stored value,
its new value recorded and the old one kept as previous. -/
def filterScan (mem : Mem) (width : Nat) (cmp : Comparison)
    (cands : List Candidate) : List Candidate × Nat :=
  match cands with
  | [] => ([], 0)
  | c :: rest =>
    let p := filterScan mem width cmp rest
    match readValue mem c.address width with
    | none => (p.1, p.2 + 1)
    | some v =>
      if evalComparison cmp v c.value then (⟨c.address, v, some c.value⟩ :: p.1, p.2)
      else p

/-- Modelled from the spec: watchpoint trigger conditions of section 3. -/
inductive TriggerCond where
  | read
  | write
  | readwrite
  | execute
deriving DecidableEq, Repr

/-- Calls made to the Native Process Access hardware-debug capability
(section 6): programming a breakpoint or watchpoint slot, clearing a
slot.  Operations return the list of calls they issued, so that
"no hardware call is attempted" is visible in the model. -/
inductive HwCall where
  | setHwBreak (address slot : Nat)
  | setHwWatch (address size : Nat) (cond : TriggerCond) (slot : Nat)
  | clearHwSlot (slot : Nat)
deriving DecidableEq, Repr

/-- Modelled from the spec: an Active registry entry of section 4.5 —
address, the hardware slot it occupies, whether it is an execution
breakpoint, and for watchpoints the watched size and trigger condition.
Only confirmed-Active entries live in the registry (a `Requested` entry
whose programming fails becomes `Removed` immediately and is never
stored). -/
structure RegistryEntry where
  address : Nat
  slot : Nat
  isExec : Bool
  size : Nat
  cond : TriggerCond
deriving DecidableEq, Repr

/-- Modelled from the spec: the platform hardware-debug slot count
("platform slot count, typically 4"). -/
def hwSlotCount : Nat := 4

/-- Modelled from the spec: the platform maximum watchpoint size
(the largest power-of-two data-watch width the debug registers accept). -/
def platformMaxWatchSize : Nat := 8

/-- Whether `n` is a power of two. -/
def isPow2 (n : Nat) : Bool := n != 0 && (n &&& (n - 1)) == 0

/-- The lowest hardware slot not occupied by a registry entry. -/
def freeSlot (reg : List RegistryEntry) : Nat :=
  (((List.range hwSlotCount).filter
      (fun i => !(reg.any (fun e => e.slot == i))))).headD 0

/-- Modelled from the spec: an active ScanSession of section 3 — the
declared value type reduced to its byte width, plus the ordered
candidate set. -/
structure ScanState where
  width : Nat
  candidates : List Candidate
deriving DecidableEq, Repr

/-- Modelled from the spec: the single shared session state of
section 5, embedding `pid_state = Arc::new(Mutex::new(None))` of
`serve.rs`: at most one ProcessHandle (here the pid) is active at a
time, held in one `Option`-typed slot; the registry, the active scan
and the cached region catalog all hang off this one state. -/
structure SessionState where
  handle : Option Nat
  registry : List RegistryEntry
  scan : Option ScanState
  regionCatalog : Option (List MemoryRegion)
deriving DecidableEq, Repr

/-- Modelled from the spec: `Open(processId)` of section 4.1 — fails
with `AlreadyOpen` if a handle is already active (explicit close
required first), with `ProcessNotFound` if the target pid is not among
the running processes; otherwise attaches and stores the one handle.
Returns the new state and the error, the state unchanged on error. -/
def openProc (procs : List Nat) (pid : Nat) (s : SessionState) :
    SessionState × Option Err :=
  match s.handle with
  | some _ => (s, some .AlreadyOpen)
  | none =>
    if procs.contains pid then ({ s with handle := some pid }, none)
    else (s, some .ProcessNotFound)

/-- Modelled from the spec: `Close()` of section 4.1 — with an open
handle it detaches, clears every hardware slot the registry occupies,
empties the registry and invalidates the active ScanSession and the
cached Region Catalog; with no open handle it is a no-op issuing no
hardware call. -/
def close (s : SessionState) : SessionState × List HwCall :=
  match s.handle with
  | none => (s, [])
  | some _ =>
    (⟨none, [], none, none⟩, s.registry.map (fun e => HwCall.clearHwSlot e.slot))

/-- Modelled from the spec: the session-level `FilterScan` — fails with
`ProcessDetached` against an invalidated handle (and likewise when close
has invalidated the active ScanSession); otherwise runs a filter round
over the stored candidates and returns the updated state together with
the round's dropped-read count. -/
def filterScanOp (mem : Mem) (cmp : Comparison) (s : SessionState) :
    Except Err (SessionState × Nat) :=
  match s.handle with
  | none => .error .ProcessDetached
  | some _ =>
    match s.scan with
    | none => .error .ProcessDetached
    | some sc =>
      let p := filterScan mem sc.width cmp sc.candidates
      .ok ({ s with scan := some ⟨sc.width, p.1⟩ }, p.2)

/-- Modelled from the spec: `SetBreakpoint(handle, address)` of
section 4.5 — fails with `ProcessDetached` on a closed session,
`AddressInUse` if the address already has an entry, `NoFreeSlot` if all
hardware slots are occupied; otherwise programs one hardware slot and
records the Active entry.  Returns the new state, the error if any, and
the hardware calls issued; on error the state is unchanged and no
hardware call is made. -/
def setBreakpoint (s : SessionState) (addr : Nat) :
    SessionState × Option Err × List HwCall :=
  match s.handle with
  | none => (s, some .ProcessDetached, [])
  | some _ =>
    if s.registry.any (fun e => e.address == addr) then (s, some .AddressInUse, [])
    else if hwSlotCount ≤ s.registry.length then (s, some .NoFreeSlot, [])
    else
      ({ s with registry := ⟨addr, freeSlot s.registry, true, 1, .execute⟩ :: s.registry },
       none, [HwCall.setHwBreak addr (freeSlot s.registry)])

/-- Modelled from the spec: `SetWatchpoint(handle, address, size,
condition)` of section 4.5 — `size` must be a power of two not exceeding
the platform maximum and `address` must be aligned to `size`; a
violation fails with `InvalidAlignment` before any hardware call is
attempted and installs nothing.  Otherwise the same slot discipline as
breakpoints applies. -/
def setWatchpoint (s : SessionState) (addr size : Nat) (cond : TriggerCond) :
    SessionState × Option Err × List HwCall :=
  if ¬(isPow2 size = true ∧ size ≤ platformMaxWatchSize ∧ addr % size = 0) then
    (s, some .InvalidAlignment, [])
  else
    match s.handle with
    | none => (s, some .ProcessDetached, [])
    | some _ =>
      if s.registry.any (fun e => e.address == addr) then (s, some .AddressInUse, [])
      else if hwSlotCount ≤ s.registry.length then (s, some .NoFreeSlot, [])
      else
        ({ s with registry := ⟨addr, freeSlot s.registry, false, size, cond⟩ :: s.registry },
         none, [HwCall.setHwWatch addr size cond (freeSlot s.registry)])

/-- Every byte of the window `[addr, addr + len)` is accessible, so a
write of `len` bytes at `addr` succeeds. -/
def canWrite (mem : Mem) (addr len : Nat) : Bool :=
  (List.range len).all (fun i => (mem (addr + i)).isSome)

/-- The memory after storing `bytes` at `addr`: inside the written
window each address holds its new byte, outside it memory is untouched. -/
def storeBytes (mem : Mem) (addr : Nat) (bytes : List Nat) : Mem :=
  fun a =>
    if addr ≤ a ∧ a < addr + bytes.length then some (bytes.getD (a - addr) 0)
    else mem a

/-- Modelled from the spec: `WriteMemory(handle, address, bytes)` of the
Native Process Access capability (missing from the available source) —
fails, surfacing `WriteFailed` to the caller, if the window is not
accessible; otherwise stores the bytes. -/
def writeMemory (mem : Mem) (addr : Nat) (bytes : List Nat) : Option Mem :=
  if canWrite mem addr bytes.length then some (storeBytes mem addr bytes) else none

/-! ## Core operations the transport is claimed to cover

The claim that the request interface maps one-to-one onto the core
operations is a refinement claim; the following enumeration follows the
spec's words ("open/close/state-change a process; read/write single or
batched memory windows; start a value scan and subsequent filter rounds;
enumerate regions; set/remove breakpoints and watchpoints; resolve a
module+offset address; generate pointer paths"), to be compared with the
route table embedded from `serve.rs`. -/

/-- Modelled from the spec: the core operations of section 6 that the
request interface is claimed to expose one-to-one; "read/write single or
batched memory windows" enumerates to single and batched reads and
single and batched writes. -/
inductive CoreOp where
  | openProcess
  | closeProcess
  | changeProcessState
  | readMemorySingle
  | writeMemorySingle
  | readMemoryBatched
  | writeMemoryBatched
  | startScan
  | filterRound
  | enumerateRegions
  | setBreakpoint
  | removeBreakpoint
  | setWatchpoint
  | removeWatchpoint
  | resolveModuleOffset
  | generatePointerPaths
deriving DecidableEq, Fintype, Repr

/-- Which core operation each handler of `serve.rs` implements:
`api::open_process_handler` opens, `api::change_process_state_handler`
suspends/resumes, the memory, scan, filter, region, watchpoint,
breakpoint, resolve-address and pointermap handlers implement the
correspondingly named operations; the process/module listing, directory,
file, app-info, server-info and exception-info handlers implement no core
operation. -/
def opOfHandler : Handler → Option CoreOp
  | .openProcess => some .openProcess
  | .changeProcessState => some .changeProcessState
  | .readMemory => some .readMemorySingle
  | .writeMemory => some .writeMemorySingle
  | .readMemoryMultiple => some .readMemoryBatched
  | .memoryScan => some .startScan
  | .memoryFilter => some .filterRound
  | .enumerateRegions => some .enumerateRegions
  | .setBreakpoint => some .setBreakpoint
  | .removeBreakpoint => some .removeBreakpoint
  | .setWatchpoint => some .setWatchpoint
  | .removeWatchpoint => some .removeWatchpoint
  | .resolveAddr => some .resolveModuleOffset
  | .pointermapGenerate => some .generatePointerPaths
  | _ => none

/-! ## Concrete fixtures used by the witness theorems -/

/-- A concrete memory: bytes readable on the window `[4096, 4160)`,
unreadable elsewhere. -/
def memC : Mem := fun a => if 4096 ≤ a ∧ a < 4160 then some (a % 7) else none

/-- A session with an attached handle and nothing else. -/
def sessOpen : SessionState := ⟨some 1234, [], none, none⟩

/-- A session with no attached handle. -/
def sessClosed : SessionState := ⟨none, [], none, none⟩

/-- A session holding one breakpoint, an active scan and a cached region
catalog. -/
def sessFull : SessionState :=
  ⟨some 1234, [⟨4096, 0, true, 1, .execute⟩],
   some ⟨1, [⟨4096, 1, none⟩]⟩, some [⟨4096, 64, true⟩]⟩

/-- A session whose registry occupies three of the four hardware slots. -/
def sess3 : SessionState :=
  ⟨some 1234,
   [⟨12288, 2, true, 1, .execute⟩, ⟨8192, 1, true, 1, .execute⟩,
    ⟨4096, 0, true, 1, .execute⟩],
   none, none⟩

/-- A session whose registry occupies all four hardware slots. -/
def sess4 : SessionState :=
  ⟨some 1234, ⟨16384, 3, true, 1, .execute⟩ :: sess3.registry, none, none⟩

/-- One readable region near the end of the readable window of `memC`,
so that part of its addresses are unreadable. -/
def regionsC : List MemoryRegion := [⟨4156, 16, true⟩]

/-- One concrete candidate list over `memC`. -/
def candsC : List Candidate := [⟨4096, 1, none⟩, ⟨5000, 3, none⟩]

/-! ## Theorems -/

/-- C1: every `FilterScan` narrows monotonically — the candidate addresses
it produces are a subset of (or equal to) the candidate addresses
immediately before it, so along any sequence of filter rounds within one
scan session no round ever adds a candidate address. -/
theorem filterScan_monotonic_narrowing (mem : Mem) (width : Nat)
    (cmp : Comparison) (cands : List Candidate) :
    (filterScan mem width cmp cands).1.map Candidate.address ⊆
      cands.map Candidate.address := by
  induction cands with
  | nil =>
    intro a ha
    simp [filterScan] at ha
  | cons c rest ih =>
    intro a ha
    rw [List.map_cons, List.mem_cons]
    cases h : readValue mem c.address width with
    | none =>
      simp only [filterScan, h] at ha
      exact Or.inr (ih ha)
    | some v =>
      by_cases hc : evalComparison cmp v c.value = true
      · simp only [filterScan, h, hc, if_true] at ha
        rw [List.map_cons, List.mem_cons] at ha
        rcases ha with ha | ha
        · exact Or.inl ha
        · exact Or.inr (ih ha)
      · simp only [filterScan, h, if_neg hc] at ha
        exact Or.inr (ih ha)

/-- Witness for C1 at a concrete filter round over `memC`. -/
theorem filterScan_monotonic_narrowing_witness :
    4096 ∈ candsC.map Candidate.address :=
  filterScan_monotonic_narrowing memC 1 Comparison.unchanged candsC
    (show 4096 ∈ (filterScan memC 1 Comparison.unchanged candsC).1.map Candidate.address
      by decide)

/-- Helper for C7: the dropped-read count of a filter round is exactly the
number of candidates whose address has become unreadable. -/
theorem filterScan_drop_count (mem : Mem) (width : Nat) (cmp : Comparison)
    (cands : List Candidate) :
    (filterScan mem width cmp cands).2 =
      cands.countP (fun c => (readValue mem c.address width).isNone) := by
  induction cands with
  | nil => simp [filterScan]
  | cons c rest ih =>
    cases h : readValue mem c.address width with
    | none => simp [filterScan, h, List.countP_cons, ih]
    | some v =>
      by_cases hc : evalComparison cmp v c.value = true
      · simp [filterScan, h, hc, List.countP_cons, ih]
      · simp [filterScan, h, hc, List.countP_cons, ih]

/-- Helper for C7: a filter round completes for every remaining address —
each candidate that is still readable and satisfies the comparison is
retained with its updated value. -/
theorem filterScan_complete (mem : Mem) (width : Nat) (cmp : Comparison)
    (cands : List Candidate) :
    ∀ c ∈ cands, ∀ v, readValue mem c.address width = some v →
      evalComparison cmp v c.value = true →
      (⟨c.address, v, some c.value⟩ : Candidate) ∈ (filterScan mem width cmp cands).1 := by
  induction cands with
  | nil =>
    intro c hc
    simp at hc
  | cons c0 rest ih =>
    intro c hc v hr he
    rcases List.mem_cons.mp hc with rfl | hmem
    · simp [filterScan, hr, he]
    · cases h0 : readValue mem c0.address width with
      | none =>
        simp only [filterScan, h0]
        exact ih c hmem v hr he
      | some v0 =>
        by_cases hc0 : evalComparison cmp v0 c0.value = true
        · simp only [filterScan, h0, hc0, if_true]
          exact List.mem_cons_of_mem _ (ih c hmem v hr he)
        · simp only [filterScan, h0, if_neg hc0]
          exact ih c hmem v hr he

/-- Helper for C7: the dropped-read count of a first scan is exactly the
number of in-scope addresses that are unreadable. -/
theorem scanStep_drop_count (mem : Mem) (width : Nat) (cmp : Comparison)
    (addrs : List Nat) :
    (scanStep mem width cmp addrs).2 =
      addrs.countP (fun a => (readValue mem a width).isNone) := by
  induction addrs with
  | nil => simp [scanStep]
  | cons a rest ih =>
    cases h : readValue mem a width with
    | none => simp [scanStep, h, List.countP_cons, ih]
    | some v =>
      by_cases hc : firstMatch cmp v = true
      · simp [scanStep, h, hc, List.countP_cons, ih]
      · simp [scanStep, h, hc, List.countP_cons, ih]

/-- Helper for C7: a first scan completes for every remaining address —
each readable in-scope address whose value satisfies the predicate is
retained as a candidate. -/
theorem scanStep_complete (mem : Mem) (width : Nat) (cmp : Comparison)
    (addrs : List Nat) :
    ∀ a ∈ addrs, ∀ v, readValue mem a width = some v →
      firstMatch cmp v = true →
      (⟨a, v, none⟩ : Candidate) ∈ (scanStep mem width cmp addrs).1 := by
  induction addrs with
  | nil =>
    intro a ha
    simp at ha
  | cons a0 rest ih =>
    intro a ha v hr he
    rcases List.mem_cons.mp ha with rfl | hmem
    · simp [scanStep, hr, he]
    · cases h0 : readValue mem a0 width with
      | none =>
        simp only [scanStep, h0]
        exact ih a hmem v hr he
      | some v0 =>
        by_cases hc0 : firstMatch cmp v0 = true
        · simp only [scanStep, h0, hc0, if_true]
          exact List.mem_cons_of_mem _ (ih a hmem v hr he)
        · simp only [scanStep, h0, if_neg hc0]
          exact ih a hmem v hr he

/-- C7: a per-address read failure never aborts a scan or filter round —
`StartScan` and `FilterScan` always complete, the unreadable addresses
are dropped and their number is reported as the `droppedReads` result
metadata, and every remaining (readable, matching) address is processed
and retained. -/
theorem scan_partial_failure_policy (mem : Mem) (regions : List MemoryRegion)
    (cmp : Comparison) (alignment width : Nat) (cands : List Candidate)
    (cmp2 : Comparison) :
    ((startScan mem regions cmp alignment width).2 =
      (scanAddresses regions alignment width).countP
        (fun a => (readValue mem a width).isNone)) ∧
    (∀ a ∈ scanAddresses regions alignment width, ∀ v,
      readValue mem a width = some v → firstMatch cmp v = true →
      (⟨a, v, none⟩ : Candidate) ∈ (startScan mem regions cmp alignment width).1) ∧
    ((filterScan mem width cmp2 cands).2 =
      cands.countP (fun c => (readValue mem c.address width).isNone)) ∧
    (∀ c ∈ cands, ∀ v, readValue mem c.address width = some v →
      evalComparison cmp2 v c.value = true →
      (⟨c.address, v, some c.value⟩ : Candidate) ∈ (filterScan mem width cmp2 cands).1) :=
  ⟨scanStep_drop_count mem width cmp (scanAddresses regions alignment width),
   scanStep_complete mem width cmp (scanAddresses regions alignment width),
   filterScan_drop_count mem width cmp2 cands,
   filterScan_complete mem width cmp2 cands⟩

/-- Witness for C7 on a region of `memC` that is partly unreadable. -/
theorem scan_partial_failure_policy_witness :
    ((startScan memC regionsC (Comparison.exact 5) 1 1).2 =
      (scanAddresses regionsC 1 1).countP (fun a => (readValue memC a 1).isNone)) ∧
    (⟨4156, 5, none⟩ : Candidate) ∈ (startScan memC regionsC (Comparison.exact 5) 1 1).1 :=
  ⟨(scan_partial_failure_policy memC regionsC (Comparison.exact 5) 1 1 candsC
      Comparison.unchanged).1,
   (scan_partial_failure_policy memC regionsC (Comparison.exact 5) 1 1 candsC
      Comparison.unchanged).2.1 4156 (by decide) 5 (by decide) (by decide)⟩

/-- C2: closing a session with an open handle removes every breakpoint
and watchpoint entry of that handle (clearing each occupied hardware
slot, so no registry entry outlives the ProcessHandle), invalidates the
active ScanSession and the cached Region Catalog, and makes a subsequent
`FilterScan` fail with `ProcessDetached`; closing with no open handle is
a no-op that issues no hardware call. -/
theorem close_teardown (s : SessionState) :
    (s.handle.isSome = true →
      (close s).1.registry = [] ∧
      (close s).1.scan = none ∧
      (close s).1.regionCatalog = none ∧
      (close s).2 = s.registry.map (fun e => HwCall.clearHwSlot e.slot) ∧
      ∀ mem cmp, filterScanOp mem cmp (close s).1 = .error Err.ProcessDetached) ∧
    (s.handle = none → close s = (s, [])) := by
  constructor
  · intro h
    cases hs : s.handle with
    | none => rw [hs] at h; simp at h
    | some pid =>
      refine ⟨?_, ?_, ?_, ?_, ?_⟩ <;> simp [close, hs, filterScanOp]
  · intro h
    simp [close, h]

/-- Witness for C2 at a session holding a breakpoint, a scan and a region
catalog, and at a session with no open handle. -/
theorem close_teardown_witness :
    ((close sessFull).1.registry = [] ∧
     (close sessFull).1.scan = none ∧
     (close sessFull).1.regionCatalog = none ∧
     (close sessFull).2 = sessFull.registry.map (fun e => HwCall.clearHwSlot e.slot) ∧
     filterScanOp memC Comparison.unchanged (close sessFull).1 =
       .error Err.ProcessDetached) ∧
    close sessClosed = (sessClosed, []) := by
  have h1 := (close_teardown sessFull).1 rfl
  have h2 := (close_teardown sessClosed).2 rfl
  exact ⟨⟨h1.1, h1.2.1, h1.2.2.1, h1.2.2.2.1,
          h1.2.2.2.2 memC Comparison.unchanged⟩, h2⟩

/-- C3: at most one ProcessHandle is active at a time — the session state
holds an `Option`-typed handle slot (the `pid_state` mutex of `serve.rs`);
`Open` while a handle is active fails with `AlreadyOpen` leaving the
session unchanged, `Open` on a pid not among the running processes fails
with `ProcessNotFound`, and a successful `Open` leaves exactly the newly
attached handle in the single slot. -/
theorem open_exclusive (procs : List Nat) (pid : Nat) (s : SessionState) :
    (s.handle.isSome = true → openProc procs pid s = (s, some Err.AlreadyOpen)) ∧
    (s.handle = none → procs.contains pid = false →
      openProc procs pid s = (s, some Err.ProcessNotFound)) ∧
    ((openProc procs pid s).2 = none → (openProc procs pid s).1.handle = some pid) := by
  refine ⟨?_, ?_, ?_⟩
  · intro h
    cases hs : s.handle with
    | none => rw [hs] at h; simp at h
    | some q => simp [openProc, hs]
  · intro h hn
    have hn2 : pid ∉ procs := by simpa using hn
    simp [openProc, h, hn2]
  · intro h2
    cases hs : s.handle with
    | some q => simp [openProc, hs] at h2
    | none =>
      by_cases hp : pid ∈ procs
      · simp [openProc, hs, hp]
      · simp [openProc, hs, hp] at h2

/-- Witness for C3: `AlreadyOpen` against an attached session,
`ProcessNotFound` for an absent pid, and the single stored handle after a
successful open. -/
theorem open_exclusive_witness :
    openProc [1234] 99 sessOpen = (sessOpen, some Err.AlreadyOpen) ∧
    openProc [1234] 99 sessClosed = (sessClosed, some Err.ProcessNotFound) ∧
    (openProc [1234] 1234 sessClosed).1.handle = some 1234 :=
  ⟨(open_exclusive [1234] 99 sessOpen).1 rfl,
   (open_exclusive [1234] 99 sessClosed).2.1 rfl (by decide),
   (open_exclusive [1234] 1234 sessClosed).2.2 (by decide)⟩

/-- C5: a `SetWatchpoint` whose size is not a power of two bounded by the
platform maximum, or whose address is not aligned to the size, fails with
`InvalidAlignment`, leaves the session (registry included) unchanged and
issues no hardware call. -/
theorem watchpoint_invalid_alignment (s : SessionState) (addr size : Nat)
    (cond : TriggerCond)
    (h : ¬(isPow2 size = true ∧ size ≤ platformMaxWatchSize ∧ addr % size = 0)) :
    setWatchpoint s addr size cond = (s, some Err.InvalidAlignment, []) := by
  unfold setWatchpoint
  rw [if_pos h]

/-- Witness for C5: size 3 is not a power of two and address 5 is not
aligned to it. -/
theorem watchpoint_invalid_alignment_witness :
    (¬(isPow2 3 = true ∧ 3 ≤ platformMaxWatchSize ∧ 5 % 3 = 0)) ∧
    setWatchpoint sessOpen 5 3 TriggerCond.write =
      (sessOpen, some Err.InvalidAlignment, []) :=
  ⟨by decide, watchpoint_invalid_alignment sessOpen 5 3 TriggerCond.write (by decide)⟩

/-- C6: with the 4-slot hardware limit, `SetBreakpoint` succeeds while a
slot is free (adding exactly one Active entry for the address), fails
with `NoFreeSlot` once all four slots are occupied, and fails with
`AddressInUse` at an address that already has an entry — in the failure
cases the session is unchanged and no hardware call is issued. -/
theorem breakpoint_slot_discipline (s : SessionState) (addr : Nat)
    (h : s.handle.isSome = true) :
    hwSlotCount = 4 ∧
    (s.registry.any (fun e => e.address == addr) = true →
      setBreakpoint s addr = (s, some Err.AddressInUse, [])) ∧
    (s.registry.any (fun e => e.address == addr) = false →
      s.registry.length < 4 →
      (setBreakpoint s addr).2.1 = none ∧
      (setBreakpoint s addr).1.registry.length = s.registry.length + 1 ∧
      addr ∈ (setBreakpoint s addr).1.registry.map RegistryEntry.address) ∧
    (s.registry.any (fun e => e.address == addr) = false →
      4 ≤ s.registry.length →
      setBreakpoint s addr = (s, some Err.NoFreeSlot, [])) := by
  cases hs : s.handle with
  | none => rw [hs] at h; simp at h
  | some pid =>
    refine ⟨rfl, ?_, ?_, ?_⟩
    · intro ha
      simp [setBreakpoint, hs, ha]
    · intro ha hl
      have hnl : ¬ hwSlotCount ≤ s.registry.length := by
        unfold hwSlotCount
        omega
      refine ⟨?_, ?_, ?_⟩ <;> simp [setBreakpoint, hs, ha, hnl]
    · intro ha hl
      have hle : hwSlotCount ≤ s.registry.length := by
        unfold hwSlotCount
        omega
      simp [setBreakpoint, hs, ha, hle]

/-- Witness for C6: the fourth install (three slots taken) succeeds, a
fifth install (all four slots taken) fails with `NoFreeSlot`, and an
install at an occupied address fails with `AddressInUse`. -/
theorem breakpoint_slot_discipline_witness :
    (setBreakpoint sess3 16384).2.1 = none ∧
    setBreakpoint sess4 20480 = (sess4, some Err.NoFreeSlot, []) ∧
    setBreakpoint sess4 4096 = (sess4, some Err.AddressInUse, []) :=
  ⟨((breakpoint_slot_discipline sess3 16384 rfl).2.2.1 (by decide) (by decide)).1,
   (breakpoint_slot_discipline sess4 20480 rfl).2.2.2 (by decide) (by decide),
   (breakpoint_slot_discipline sess4 4096 rfl).2.1 (by decide)⟩

/-- Helper for C8: reading is determined by the bytes inside the window. -/
theorem readBytes_congr (m1 m2 : Mem) (addr n : Nat)
    (h : ∀ i, i < n → m1 (addr + i) = m2 (addr + i)) :
    readBytes m1 addr n = readBytes m2 addr n := by
  induction n generalizing addr with
  | zero => rfl
  | succ k ih =>
    have h0 : m1 addr = m2 addr := by simpa using h 0 (Nat.succ_pos k)
    have hrest : readBytes m1 (addr + 1) k = readBytes m2 (addr + 1) k := by
      apply ih
      intro i hi
      have e : addr + (i + 1) = addr + 1 + i := by omega
      have := h (i + 1) (by omega)
      rw [e] at this
      exact this
    simp only [readBytes, h0, hrest]

/-- Helper for C8: reading back a freshly stored window returns exactly
the stored bytes. -/
theorem readBytes_storeBytes (mem : Mem) (addr : Nat) (bytes : List Nat) :
    readBytes (storeBytes mem addr bytes) addr bytes.length = some bytes := by
  induction bytes generalizing mem addr with
  | nil => rfl
  | cons b bs ih =>
    have h0 : storeBytes mem addr (b :: bs) addr = some b := by
      have hc : addr ≤ addr ∧ addr < addr + (bs.length + 1) := by omega
      show (if addr ≤ addr ∧ addr < addr + (bs.length + 1)
            then some ((b :: bs).getD (addr - addr) 0) else mem addr) = some b
      rw [if_pos hc, Nat.sub_self, List.getD_cons_zero]
    have hcongr : readBytes (storeBytes mem addr (b :: bs)) (addr + 1) bs.length
        = readBytes (storeBytes mem (addr + 1) bs) (addr + 1) bs.length := by
      apply readBytes_congr
      intro i hi
      have hc1 : addr ≤ addr + 1 + i ∧ addr + 1 + i < addr + (bs.length + 1) := by omega
      have hc2 : addr + 1 ≤ addr + 1 + i ∧ addr + 1 + i < addr + 1 + bs.length := by omega
      show (if addr ≤ addr + 1 + i ∧ addr + 1 + i < addr + (bs.length + 1)
            then some ((b :: bs).getD (addr + 1 + i - addr) 0) else mem (addr + 1 + i))
          = (if addr + 1 ≤ addr + 1 + i ∧ addr + 1 + i < addr + 1 + bs.length
            then some (bs.getD (addr + 1 + i - (addr + 1)) 0) else mem (addr + 1 + i))
      rw [if_pos hc1, if_pos hc2]
      have e1 : addr + 1 + i - addr = i + 1 := by omega
      have e2 : addr + 1 + i - (addr + 1) = i := by omega
      rw [e1, e2, List.getD_cons_succ]
    simp only [List.length_cons, readBytes, h0, hcongr, ih, Option.map_some']

/-- C8: the write/read round-trip law — a successful
`WriteMemory(addr, bytes)`, followed immediately by
`ReadMemory(addr, bytes.length)` with no external mutation in between,
returns exactly `bytes`. -/
theorem write_read_roundtrip (mem : Mem) (addr : Nat) (bytes : List Nat)
    (mem2 : Mem) (h : writeMemory mem addr bytes = some mem2) :
    readBytes mem2 addr bytes.length = some bytes := by
  unfold writeMemory at h
  by_cases hc : canWrite mem addr bytes.length = true
  · rw [if_pos hc] at h
    obtain rfl : storeBytes mem addr bytes = mem2 := by
      injection h
    exact readBytes_storeBytes mem addr bytes
  · rw [if_neg hc] at h
    exact absurd h (by simp)

/-- Witness for C8: writing three bytes into the readable window of
`memC` and reading them back. -/
theorem write_read_roundtrip_witness :
    writeMemory memC 4096 [1, 2, 3] = some (storeBytes memC 4096 [1, 2, 3]) ∧
    readBytes (storeBytes memC 4096 [1, 2, 3]) 4096 3 = some [1, 2, 3] :=
  ⟨rfl,
   write_read_roundtrip memC 4096 [1, 2, 3] (storeBytes memC 4096 [1, 2, 3]) rfl⟩

/-- C4 counterexample: two of the claimed core operations have no route
in `serve.rs` — nothing closes a process (`/process` has only POST, the
open, and PUT, the state change) and nothing performs a batched memory
write (`/memories` POST is the batched read); the claimed one-to-one
coverage of the core operations fails at `closeProcess` and at
`writeMemoryBatched`. -/
theorem no_close_or_batched_write_route :
    (¬ ∃ r, r ∈ allRoutes ∧ opOfHandler r.handler = some CoreOp.closeProcess) ∧
    (¬ ∃ r, r ∈ allRoutes ∧ opOfHandler r.handler = some CoreOp.writeMemoryBatched) := by
  decide

/-- C4 (amended): every core operation except closing a process and the
batched memory write is exposed by exactly one route of the transport
interface — open a process, change process state, read/write single
memory windows, batched memory reads, start a scan, filter rounds,
enumerate regions, set and remove breakpoints and watchpoints, resolve a
module+offset address, and generate pointer paths; there is no
close-process route and no batched-write route. -/
theorem routes_cover_core_ops_except_close_and_batched_write :
    ∀ op : CoreOp, op ≠ CoreOp.closeProcess → op ≠ CoreOp.writeMemoryBatched →
      (allRoutes.filter
          (fun r => decide (opOfHandler r.handler = some op))).length = 1 ∧
      ∃ r, r ∈ allRoutes ∧ opOfHandler r.handler = some op := by
  decide

/-- Witness for C4 at the open-process operation. -/
theorem routes_cover_core_ops_witness :
    (CoreOp.openProcess ≠ CoreOp.closeProcess ∧
     CoreOp.openProcess ≠ CoreOp.writeMemoryBatched) ∧
    ((allRoutes.filter
        (fun r => decide (opOfHandler r.handler = some CoreOp.openProcess))).length = 1 ∧
     ∃ r, r ∈ allRoutes ∧ opOfHandler r.handler = some CoreOp.openProcess) :=
  ⟨⟨by decide, by decide⟩,
   routes_cover_core_ops_except_close_and_batched_write CoreOp.openProcess
     (by decide) (by decide)⟩

/-- C9: the batched memory-read route `POST /memories` declares the
10 MiB body limit — a body larger than `10 * 1024 * 1024` bytes is
rejected before the handler runs, a body at or under the limit reaches
the handler — and no other route of the server declares an explicit body
limit. -/
theorem memories_body_limit :
    read_memory_multiple.bodyLimit = some (10 * 1024 * 1024) ∧
    (∀ len : Nat, 10 * 1024 * 1024 < len →
      bodyAccepted read_memory_multiple len = false) ∧
    (∀ len : Nat, len ≤ 10 * 1024 * 1024 →
      bodyAccepted read_memory_multiple len = true) ∧
    (∀ r ∈ allRoutes, r.bodyLimit.isSome = true → r = read_memory_multiple) := by
  refine ⟨rfl, ?_, ?_, by decide⟩
  · intro len h
    simp only [bodyAccepted, read_memory_multiple]
    simp only [decide_eq_false_iff_not]
    omega
  · intro len h
    simp only [bodyAccepted, read_memory_multiple]
    simp only [decide_eq_true_eq]
    omega

/-- Witness for C9 at one byte over and exactly at the limit, and at the
one limited route. -/
theorem memories_body_limit_witness :
    bodyAccepted read_memory_multiple (10 * 1024 * 1024 + 1) = false ∧
    bodyAccepted read_memory_multiple (10 * 1024 * 1024) = true ∧
    read_memory_multiple = read_memory_multiple :=
  ⟨memories_body_limit.2.1 (10 * 1024 * 1024 + 1) (by omega),
   memories_body_limit.2.2.1 (10 * 1024 * 1024) (by omega),
   memories_body_limit.2.2.2 read_memory_multiple (by decide) rfl⟩

/-- C10: the CORS policy allows any origin, the headers `*` and
`Content-Type`, and the methods GET, POST, PUT, DELETE and OPTIONS, and
it is applied to every route of the server — including process open,
memory write, scan, filter and the breakpoint/watchpoint routes — so any
web origin may invoke every endpoint. -/
theorem cors_applies_to_all_routes :
    cors.allowAnyOrigin = true ∧
    cors.allowHeaders = ["*", "Content-Type"] ∧
    cors.allowMethods = ["GET", "POST", "PUT", "DELETE", "OPTIONS"] ∧
    open_process ∈ allRoutes ∧ write_memory ∈ allRoutes ∧
    memory_scan ∈ allRoutes ∧ memory_filter ∈ allRoutes ∧
    set_breakpoint_route ∈ allRoutes ∧ set_watchpoint_route ∈ allRoutes ∧
    (∀ r ∈ allRoutes, (r, cors) ∈ servedRoutes) := by
  refine ⟨rfl, rfl, rfl, by decide, by decide, by decide, by decide, by decide,
          by decide, ?_⟩
  intro r hr
  simp only [servedRoutes]
  exact List.mem_map_of_mem _ hr

/-- Witness for C10 at the process-open route. -/
theorem cors_applies_to_all_routes_witness :
    (open_process, cors) ∈ servedRoutes :=
  cors_applies_to_all_routes.2.2.2.2.2.2.2.2.2 open_process (by decide)

end MemoryServer
